import Mathlib

/-!
Verification development for the Chartink→Fyers webhook trading relay
(`chartink_webhook.py`). The Python source is shallowly embedded below:
pure numeric code becomes functions over `ℚ` (Python floats are modelled as
exact rationals; `round(x, 2)` becomes `pyRound2`, `int(x)` becomes `pyInt`),
broker/network calls become explicit oracle parameters, and the
lock-protected duplicate-admission logic becomes a small atomic-step trace
machine in which each lock-protected section is one step.
-/

namespace ChartinkWebhook

/-- Python `round(x, 2)` modelled over `ℚ` (nearest multiple of `1/100`;
ties are modelled with `round`, i.e. half-up — no statement below depends on
tie behaviour). -/
def pyRound2 (q : ℚ) : ℚ := (round (q * 100) : ℚ) / 100

/-- Python `int(x)`: truncation toward zero. -/
def pyInt (q : ℚ) : ℤ := if 0 ≤ q then ⌊q⌋ else ⌈q⌉

/-- One 15-minute OHLCV bar as produced by `get_recent_15min_candles`. -/
structure Candle where
  t : ℚ
  o : ℚ
  h : ℚ
  l : ℚ
  c : ℚ
  v : ℚ
deriving DecidableEq

/-- The technical-stop method selected by the `STOP_METHOD` env variable.
Any unrecognised string behaves like `percent` (the code falls through to
the percent-based stop), so `percent` doubles as the catch-all. -/
inductive StopMethod where
  | atr
  | swingLow
  | vwma
  | percent
deriving DecidableEq

/-- The environment-variable configuration of `chartink_webhook.py`
(`ENTRY_TOLERANCE`, `STOPLOSS_PCT`, `TARGET_PCT`, `CAPITAL_PER_TRADE`,
`RISK_PCT`, `ATR_PERIOD`, `ATR_MULT`, `SWING_LOOKBACK`, `VWMA_LOOKBACK`,
`STOP_METHOD`, price-bracket quantities, `TRADE_MODE`). -/
structure Config where
  entryTolerance : ℚ
  stoplossPct : ℚ
  targetPct : ℚ
  capitalPerTrade : ℚ
  riskPct : ℚ
  atrPeriod : ℕ
  atrMult : ℚ
  swingLookback : ℕ
  vwmaLookback : ℕ
  stopMethod : StopMethod
  lowPriceLimit : ℚ
  midPriceLimit : ℚ
  lowQty : ℤ
  highQty : ℤ
  minCandleBars : ℕ
  tradeModeReal : Bool
deriving DecidableEq

/-- The documented defaults of the env variables. -/
def defaultConfig : Config where
  entryTolerance := 1/50
  stoplossPct := 1/100
  targetPct := 1/50
  capitalPerTrade := 20000
  riskPct := 1/100
  atrPeriod := 14
  atrMult := 3/2
  swingLookback := 5
  vwmaLookback := 20
  stopMethod := .atr
  lowPriceLimit := 200
  midPriceLimit := 600
  lowQty := 10
  highQty := 5
  minCandleBars := 10
  tradeModeReal := false

/-- Helper for `compute_true_ranges`: the running `prev_close` is threaded
through as an `Option`. -/
def trAux : Option ℚ → List Candle → List ℚ
  | _, [] => []
  | pc, c :: rest =>
    (match pc with
     | none => c.h - c.l
     | some p => max (c.h - c.l) (max |c.h - p| |c.l - p|)) :: trAux (some c.c) rest

/-- `compute_true_ranges(candles)`. -/
def computeTrueRanges (cs : List Candle) : List ℚ := trAux none cs

/-- `compute_atr(candles, period)`: simple ATR, the mean of the last
`period` true ranges of the last `period+1` candles. The Python slice
`trs[-period:]` returns the whole list when `period = 0`. -/
def computeAtr (cs : List Candle) (period : ℕ) : Option ℚ :=
  if cs.length < 2 then none
  else
    let use := if cs.length ≥ period + 1 then cs.drop (cs.length - (period + 1)) else cs
    let trs := computeTrueRanges use
    if trs = [] then none
    else
      let lastTrs :=
        if period = 0 then trs
        else if trs.length ≥ period then trs.drop (trs.length - period) else trs
      if lastTrs = [] then none
      else some (lastTrs.sum / lastTrs.length)

/-- `compute_swing_low(candles, lookback)`: minimum low over the previous
`lookback` closed candles (the forming bar is dropped when more than one
candle is present). The slice `use[-lookback:]` returns the whole list when
`lookback = 0`. -/
def computeSwingLow (cs : List Candle) (lookback : ℕ) : Option ℚ :=
  if cs = [] then none
  else
    let use := if cs.length > 1 then cs.dropLast else cs
    let use :=
      if lookback = 0 then use
      else if use.length ≥ lookback then use.drop (use.length - lookback) else use
    (use.map (·.l)).min?

/-- `compute_vwma(candles)`: volume-weighted mean of closes; `None` when the
volume sum is zero (Python falsy denominator). -/
def computeVwma (cs : List Candle) : Option ℚ :=
  let num := (cs.map (fun c => c.c * c.v)).sum
  let den := (cs.map (·.v)).sum
  if den ≠ 0 then some (num / den) else none

/-- `compute_technical_stop(entry_price, symbol_code)`. The candle fetch
becomes the `oc` oracle argument (`none` models a failed fetch; the code
also treats an empty list as falsy). Falsy (`= 0`) ATR/swing/VWMA values
fall through to the percent stop, exactly as Python truthiness does. -/
def computeTechnicalStop (cfg : Config) (entry : ℚ) (oc : Option (List Candle)) : Option ℚ :=
  match oc with
  | none => none
  | some cs =>
    if cs = [] then none
    else
      let percent := some (pyRound2 (entry * (1 - cfg.stoplossPct)))
      match cfg.stopMethod with
      | .atr =>
        match computeAtr cs cfg.atrPeriod with
        | some atr =>
          if atr ≠ 0 then
            let stop := entry - atr * cfg.atrMult
            let minDist := entry * (2/1000)
            let stop := if entry - stop < minDist then entry - minDist else stop
            some (pyRound2 stop)
          else percent
        | none => percent
      | .swingLow =>
        match computeSwingLow cs cfg.swingLookback with
        | some swing =>
          if swing ≠ 0 then
            let buffer := entry * (2/1000)
            let stop := swing - buffer
            let stop := if stop ≥ entry then entry * (1 - cfg.stoplossPct) else stop
            some (pyRound2 stop)
          else percent
        | none => percent
      | .vwma =>
        let vw :=
          if cfg.vwmaLookback = 0 then computeVwma cs
          else if cs.length ≥ cfg.vwmaLookback then
            computeVwma (cs.drop (cs.length - cfg.vwmaLookback))
          else computeVwma cs
        match vw with
        | some v =>
          if v ≠ 0 then some (pyRound2 (min (entry * (1 - cfg.stoplossPct)) (v * (995/1000))))
          else percent
        | none => percent
      | .percent => percent

/-- `get_quantity(price)`: the fixed price-bracket quantity rule (the middle
bracket returns the literal `10`, not an env variable). -/
def getQuantity (cfg : Config) (price : ℚ) : ℤ :=
  if price ≤ cfg.lowPriceLimit then cfg.lowQty
  else if price ≤ cfg.midPriceLimit then 10
  else cfg.highQty

/-! ### Signal intake: the `/chartink` webhook handler -/

/-- Digits-to-number accumulator; `none` as soon as a non-digit appears. -/
def natOfDigits (l : List Char) : Option ℕ :=
  l.foldl
    (fun acc c =>
      match acc with
      | none => none
      | some n => if c.isDigit then some (n * 10 + (c.toNat - 48)) else none)
    (some 0)

/-- Unsigned decimal literal: digits with at most one dot and at least one
digit overall (`"1."`, `".5"` are accepted, `"."` and `""` are not). -/
def parseUnsigned (cs : List Char) : Option ℚ :=
  match cs.splitOn '.' with
  | [intPart] =>
    if intPart = [] then none
    else (natOfDigits intPart).map (fun n => (n : ℚ))
  | [intPart, fracPart] =>
    if intPart = [] ∧ fracPart = [] then none
    else
      match natOfDigits intPart, natOfDigits fracPart with
      | some i, some f => some ((i : ℚ) + (f : ℚ) / 10 ^ fracPart.length)
      | _, _ => none
  | _ => none

/-- Python `float(s)` on an already-stripped token, modelled for plain signed
decimal literals; every other shape (including exotic forms Python would
also accept, such as exponents) is `none`, i.e. raises. All statements
below use it only on plain literals, where it agrees with Python. -/
def parseFloat? (cs : List Char) : Option ℚ :=
  match cs with
  | '+' :: rest => parseUnsigned rest
  | '-' :: rest => (parseUnsigned rest).map (fun q => -q)
  | _ => parseUnsigned cs

/-- The list comprehension `[float(p.strip()) for p in ... if p.strip()]`
after the blank filter: `none` models the `ValueError` that aborts the
whole request handler. -/
def parseAll : List (List Char) → Option (List ℚ)
  | [] => some []
  | t :: rest =>
    match parseFloat? t, parseAll rest with
    | some q, some l => some (q :: l)
    | _, _ => none

/-- Python `str.strip()` on a token, over its character list. -/
def pyStrip (cs : List Char) : List Char :=
  ((cs.dropWhile Char.isWhitespace).reverse.dropWhile Char.isWhitespace).reverse

/-- `s.split(",")` followed by per-token `strip()`, over character lists. -/
def splitCommaStrip (s : String) : List (List Char) :=
  (s.toList.splitOn ',').map pyStrip

/-- The non-blank stripped price tokens of the `trigger_prices` field
(the `if p.strip()` truthiness filter of the comprehension). -/
def priceTokens (triggerPrices : String) : List (List Char) :=
  (splitCommaStrip triggerPrices).filter (· ≠ [])

/-- The stripped symbols of the `stocks` field, as strings again. -/
def symbolList (stocks : String) : List String :=
  (splitCommaStrip stocks).map (fun cs => String.mk cs)

/-- The `for idx, symbol in enumerate(stock_list)` loop body: the `idx`-th
symbol is sent to `secure_place_thread` iff `idx` is in range of the parsed
price list and the paired price is truthy (nonzero). -/
def spawnLoop (idx : ℕ) (syms : List String) (ps : List ℚ) : List (String × ℚ) :=
  match syms with
  | [] => []
  | s :: rest =>
    (match ps[idx]? with
     | some p => if p ≠ 0 then [(s, p)] else []
     | none => []) ++ spawnLoop (idx + 1) rest ps

/-- Outcome of the `/chartink` handler: either an error response or a
success response together with the list of (symbol, price) entry attempts
it spawned. -/
inductive AlertResult where
  | fail (msg : String)
  | success (spawns : List (String × ℚ))
deriving DecidableEq

/-- Whether the handler answered with `status: error`. -/
def AlertResult.isFailure : AlertResult → Bool
  | .fail _ => true
  | .success _ => false

/-- The `/chartink` webhook handler `chartink_alert`, restricted to its two
string fields (absent fields default to `""`). A `ValueError` from `float`
is caught by the handler's outer `except` and produces an error response
with no entry attempt spawned. -/
def chartinkAlert (stocks triggerPrices : String) : AlertResult :=
  if stocks = "" then .fail "No stocks found"
  else
    match parseAll (priceTokens triggerPrices) with
    | none => .fail "could not convert string to float"
    | some priceList => .success (spawnLoop 0 (symbolList stocks) priceList)

/-! ### Position engine: entry checks, sizing and the BUY path -/

/-- Result of `should_enter_trade` (the informational extras `ltp`,
`prev_high`, `avg_vol`, `vwma` that the dict carries are not consulted by
any caller's control flow and are omitted). -/
structure CheckRes where
  ok : Bool
  reason : String
deriving DecidableEq

/-- `should_enter_trade(symbol, trigger_price)`. Oracle arguments replace
the network: `symbolCode` is `resolve_symbol_code`'s result, `oltp` is
`get_ltp`'s, `lateNow` is `now_ist().time() >= 15:10`, `oc` is
`get_recent_15min_candles`'s. The result `none` models the uncaught
`IndexError` when an empty candle list is indexed (`candles[-1]`); the
computed-but-unused `avg_vol`/`vwma` locals are dropped. -/
def shouldEnterTrade (cfg : Config) (symbolCode : Option String) (oltp : Option ℚ)
    (lateNow : Bool) (oc : Option (List Candle)) (triggerPrice : ℚ) : Option CheckRes :=
  match symbolCode with
  | none => some ⟨false, "no_ltp"⟩
  | some _ =>
    match oltp with
    | none => some ⟨false, "no_ltp"⟩
    | some ltp =>
      if lateNow then some ⟨false, "post_15_10_time"⟩
      else if ltp > triggerPrice * (1 + cfg.entryTolerance) then
        some ⟨false, "too_far_above_trigger"⟩
      else
        match oc with
        | none => some ⟨false, "no_candles"⟩
        | some cs =>
          match cs[cs.length - (if 2 ≤ cs.length then 2 else 1)]? with
          | none => none
          | some prevClosed =>
            if ltp > prevClosed.h * (1 + cfg.entryTolerance) then
              some ⟨false, "ltp_above_prev_high_too_much"⟩
            else some ⟨true, "checks_passed"⟩

/-- Lines 542–579 of `place_order` for a truthy `ltp`: compute the
technical stop (already fetched as `ts0`), force a stop at/above the price
back to the rounded percent stop, and size the position; a non-positive
risk per share raises `ValueError`, caught by the fallback to
`get_quantity`. Returns the chosen quantity and `computed_tech_stop`
(`none` on the exception path). -/
def sizingBuy (cfg : Config) (ltp : ℚ) (ts0 : Option ℚ) : ℤ × Option ℚ :=
  let t1 := match ts0 with
    | none => pyRound2 (ltp * (1 - cfg.stoplossPct))
    | some s => s
  let t2 := if t1 ≥ ltp then pyRound2 (ltp * (1 - cfg.stoplossPct)) else t1
  let riskPerShare := ltp - t2
  if riskPerShare ≤ 0 then (getQuantity cfg ltp, none)
  else
    let maxLoss := cfg.capitalPerTrade * cfg.riskPct
    let qtyRiskBased := max 1 (pyInt (maxLoss / riskPerShare))
    let qtyValueBased := max 1 (pyInt (cfg.capitalPerTrade / ltp))
    (min qtyRiskBased qtyValueBased, some t2)

/-- One open position as stored in `open_positions` / `open_positions.json`. -/
structure Position where
  entry_price : ℚ
  qty : ℤ
  timestamp : String
  stop_price : ℚ
deriving DecidableEq

/-- The oracle environment of one `place_order(symbol, price, side=1)` call:
clock reads, symbol resolution, the two `get_ltp` reads (pre-check and
sizing), the candle fetch (deterministic per call window) and the broker's
order acknowledgement. -/
structure OrderEnv where
  lateNow : Bool
  marketOpen : Bool
  resolveResult : Option String
  checkLtp : Option ℚ
  candles : Option (List Candle)
  sizeLtp : Option ℚ
  orderOk : Bool
  nowIso : String
deriving DecidableEq

/-- `entry_price = ltp if ltp else price` (line 611). -/
def entryOf (env : OrderEnv) (price : ℚ) : ℚ :=
  match env.sizeLtp with
  | some v => if v ≠ 0 then v else price
  | none => price

/-- Quantity and `computed_tech_stop` of the sizing block, covering the
falsy-`ltp` fallback to `get_quantity(price)` (lines 538–579). -/
def sizedOf (cfg : Config) (env : OrderEnv) (price : ℚ) : ℤ × Option ℚ :=
  match env.sizeLtp with
  | some v =>
    if v ≠ 0 then sizingBuy cfg v (computeTechnicalStop cfg v env.candles)
    else (getQuantity cfg price, none)
  | none => (getQuantity cfg price, none)

/-- The stop recorded into `open_positions` (lines 613–618):
`computed_tech_stop` if truthy, else a fresh `compute_technical_stop`, else
the rounded percent stop. -/
def recordedStop (cfg : Config) (env : OrderEnv) (price : ℚ) : ℚ :=
  let entry := entryOf env price
  let fresh : ℚ :=
    match computeTechnicalStop cfg entry env.candles with
    | none => pyRound2 (entry * (1 - cfg.stoplossPct))
    | some s2 => s2
  match (sizedOf cfg env price).2 with
  | some s => if s ≠ 0 then s else fresh
  | none => fresh

/-- Outcome of a BUY `place_order` call: the rejection reason if it was
skipped, the quantity sent, and the position recorded into
`open_positions` (only on an acknowledged order). -/
structure BuyResult where
  skipped : Option String
  qty : ℤ
  recorded : Option (String × Position)
deriving DecidableEq

/-- `place_order(symbol, price, side=1)` (lines 500–634): late cutoff,
market-hours guard for REAL mode, `should_enter_trade` gate, sizing, order
placement and the `open_positions` record on an `s == "ok"` response. -/
def placeOrderBuy (cfg : Config) (env : OrderEnv) (symbol : String) (price : ℚ) : BuyResult :=
  if env.lateNow then { skipped := some "post_15_10", qty := 0, recorded := none }
  else if cfg.tradeModeReal && !env.marketOpen then
    { skipped := some "market_closed", qty := 0, recorded := none }
  else
    match shouldEnterTrade cfg env.resolveResult env.checkLtp env.lateNow env.candles price with
    | none => { skipped := some "exception", qty := 0, recorded := none }
    | some chk =>
      if !chk.ok then { skipped := some chk.reason, qty := 0, recorded := none }
      else
        let qty := max 1 (sizedOf cfg env price).1
        if env.orderOk then
          { skipped := none, qty := qty,
            recorded := some (symbol,
              { entry_price := entryOf env price, qty := qty, timestamp := env.nowIso,
                stop_price := recordedStop cfg env price }) }
        else { skipped := none, qty := qty, recorded := none }

/-! ### Exit monitor: per-position target/stop decision -/

/-- `target = entry * (1 + TARGET_PCT)` (line 759). -/
def monitorTarget (cfg : Config) (entry : ℚ) : ℚ := entry * (1 + cfg.targetPct)

/-- The stop the monitor compares against (lines 762–771): the stored
`stop_price` when truthy, else the percent stop recomputed from entry. -/
def monitorStop (cfg : Config) (pos : Position) : ℚ :=
  if pos.stop_price ≠ 0 then pos.stop_price else pos.entry_price * (1 - cfg.stoplossPct)

/-- The monitor's exit decision for one position at live price `ltp`
(line 773): exit iff target or stop is crossed. -/
def monitorExit (cfg : Config) (pos : Position) (ltp : ℚ) : Bool :=
  ltp ≥ monitorTarget cfg pos.entry_price || ltp ≤ monitorStop cfg pos

/-! ### End-of-day reconciliation -/

/-- The timeout branch of `verify_and_clear_positions_after_autosquare`
(lines 696–716): iterate over a snapshot of `open_positions`, attempt one
close per position (real or simulated — either way the position is then
popped), mutating the live table as we go. -/
def timeoutClose (st : List (String × Position)) : List (String × Position) :=
  st.foldl (fun acc e => acc.filter (fun x => x.1 ≠ e.1)) st

/-- `verify_and_clear_positions_after_autosquare()`: `polls` is the finite
sequence of `get_broker_open_positions()` results until the 15:25:30
deadline (`none` = unknown). A poll showing no nonzero net quantity clears
local state and returns `True`; at the deadline the remaining positions
are closed and popped one by one (returning `False`), or `True` if none
remain. -/
def verifyAndClear (polls : List (Option (List (String × ℚ))))
    (st : List (String × Position)) : List (String × Position) × Bool :=
  match polls with
  | [] => if st = [] then (st, true) else (timeoutClose st, false)
  | p :: rest =>
    match p with
    | some bp => if bp.all (fun x => x.2 = 0) then ([], true) else verifyAndClear rest st
    | none => verifyAndClear rest st

/-! ### Persistence: `save_positions` / `load_positions` -/

/-- JSON values as far as the positions file uses them (`json.dump` writes
Python ints and floats distinctly and `json.load` restores them). -/
inductive JVal where
  | jnum (q : ℚ)
  | jint (n : ℤ)
  | jstr (s : String)
  | jobj (fields : List (String × JVal))

/-- `save_positions()`: the JSON object written for one position. -/
def encodePosition (p : Position) : JVal :=
  .jobj [("entry_price", .jnum p.entry_price), ("qty", .jint p.qty),
         ("timestamp", .jstr p.timestamp), ("stop_price", .jnum p.stop_price)]

/-- `save_positions()`: the JSON object written for the whole table. -/
def encodePositions (ps : List (String × Position)) : JVal :=
  .jobj (ps.map (fun e => (e.1, encodePosition e.2)))

/-- `load_positions()`: read one position back. -/
def decodePosition : JVal → Option Position
  | .jobj [(k1, .jnum e), (k2, .jint q), (k3, .jstr t), (k4, .jnum s)] =>
    if k1 = "entry_price" ∧ k2 = "qty" ∧ k3 = "timestamp" ∧ k4 = "stop_price" then
      some ⟨e, q, t, s⟩
    else none
  | _ => none

/-- `load_positions()`: read the table back, field by field. -/
def decodeFields : List (String × JVal) → Option (List (String × Position))
  | [] => some []
  | (s, v) :: rest =>
    match decodePosition v, decodeFields rest with
    | some p, some r => some ((s, p) :: r)
    | _, _ => none

/-- `load_positions()` on a whole file. -/
def decodePositions : JVal → Option (List (String × Position))
  | .jobj fs => decodeFields fs
  | _ => none

/-! ### Concurrency: the duplicate-admission guard of `secure_place_thread`

Each lock-protected section (and each GIL-atomic dict/set mutation) is one
atomic step; a schedule is an arbitrary interleaving of thread ids. A
thread executes, in order: `enterGuard` (the `with lock:` check-and-mark,
lines 889–904), `record` (the order placement and `open_positions` write
of `place_order`, taken as succeeding), and `cleanup` (the `finally:`
block's `active_trades.discard`, lines 914–916, which runs on every exit —
including the duplicate-rejected return). -/

/-- The atomic steps of one `secure_place_thread` invocation. -/
inductive ThreadOp where
  | enterGuard
  | record
  | cleanup
deriving DecidableEq

/-- One entry-attempt thread: its remaining steps and whether its guard
check admitted it. -/
structure AttemptThread where
  prog : List ThreadOp
  admitted : Bool
deriving DecidableEq

/-- Shared engine state plus per-thread state: `active` models
`active_trades`, `positions` the keys of `open_positions`, `ordersPlaced`
counts buy orders sent to the broker. -/
structure EngineSys where
  active : List String
  positions : List String
  ordersPlaced : ℕ
  threads : List AttemptThread
deriving DecidableEq

/-- Execute the next atomic step of thread `tid` (no-op for an exhausted or
unknown thread). A rejected duplicate skips `record` but still runs
`cleanup` — faithfully discarding the symbol from `active_trades` even
though this thread never added it. -/
def execOp (sym : String) (s : EngineSys) (tid : ℕ) : EngineSys :=
  match s.threads.get? tid with
  | none => s
  | some th =>
    match th.prog with
    | [] => s
    | op :: rest =>
      match op with
      | .enterGuard =>
        if sym ∈ s.active ∨ sym ∈ s.positions then
          { s with threads := s.threads.set tid { prog := [.cleanup], admitted := false } }
        else
          { s with active := sym :: s.active,
                   threads := s.threads.set tid { prog := rest, admitted := true } }
      | .record =>
        { s with ordersPlaced := s.ordersPlaced + 1,
                 positions := if sym ∈ s.positions then s.positions else sym :: s.positions,
                 threads := s.threads.set tid { th with prog := rest } }
      | .cleanup =>
        { s with active := s.active.erase sym,
                 threads := s.threads.set tid { th with prog := rest } }

/-- Run a schedule of thread-id choices. -/
def runSched (sym : String) (sched : List ℕ) (s : EngineSys) : EngineSys :=
  sched.foldl (execOp sym) s

/-- `n` fresh concurrent entry attempts over an initially free engine. -/
def initSys (n : ℕ) : EngineSys :=
  { active := [], positions := [], ordersPlaced := 0,
    threads := List.replicate n { prog := [.enterGuard, .record, .cleanup], admitted := false } }

/-- Fifteen identical flat candles (high 100, low 99): ATR 1, previous
closed high 100. Used for the entry-check example scenario. -/
def calmCandles : List Candle := List.replicate 15 ⟨0, 100, 100, 99, 100, 1000⟩

/-- Fifteen identical candles with true range 2 (high 100, low 98): ATR 2.
Used for the ATR-stop example scenario. -/
def atrCandles : List Candle := List.replicate 15 ⟨0, 100, 100, 98, 100, 1000⟩

/-- A concrete benign order environment: before the cutoff, market open,
symbol resolved, live price 101, flat candles, broker acknowledges. -/
def benignEnv : OrderEnv where
  lateNow := false
  marketOpen := true
  resolveResult := some "NSE:AAA-EQ"
  checkLtp := some 101
  candles := some calmCandles
  sizeLtp := some 101
  orderOk := true
  nowIso := "t0"

/-! ## Theorems -/

/-- Claim C1 (evidence of the code bug): the duplicate guard is NOT
sufficient to reject every entry attempt arriving while a symbol is
mid-admission. The `finally:` block of `secure_place_thread` runs
`active_trades.discard(symbol)` even when the thread was itself rejected
as a duplicate and never added the marker, erasing the first thread's
in-admission marker. Concretely: thread 0 passes the guard; thread 1 is
rejected as a duplicate but its cleanup removes thread 0's marker; thread 2
then passes the guard too, although thread 0 is still mid-admission, and
two buy orders are placed (two admissions) for the same symbol — the claim
requires exactly one. -/
theorem c1_duplicate_guard_bug :
    (runSched "RELIANCE" [0, 1, 1, 2, 0, 2, 0, 2] (initSys 3)).ordersPlaced = 2 ∧
    ((runSched "RELIANCE" [0, 1, 1, 2, 0, 2, 0, 2] (initSys 3)).threads.filter
      (·.admitted)).length = 2 := by
  decide

/-- Claim C8: persisting the open-position table with `save_positions` and
reloading it with `load_positions` (a simulated restart) restores an
identical table — same symbols, entry prices, quantities, timestamps and
stop prices — for every table expressible in the storage format. -/
theorem c8_positions_roundtrip (ps : List (String × Position)) :
    decodePositions (encodePositions ps) = some ps := by
  induction ps with
  | nil => rfl
  | cons e rest ih =>
    obtain ⟨s, p⟩ := e
    have hrest : decodeFields (rest.map (fun e => (e.1, encodePosition e.2))) = some rest := ih
    simp only [encodePositions, decodePositions, List.map_cons, decodeFields]
    rw [hrest]
    simp [encodePosition, decodePosition]

/-- Helper for claim C7: popping every key of the snapshot from the live
table empties it. -/
theorem foldl_filter_keys (l : List (String × Position)) :
    ∀ acc : List (String × Position), (∀ x ∈ acc, x.1 ∈ l.map Prod.fst) →
      l.foldl (fun acc e => acc.filter (fun x => x.1 ≠ e.1)) acc = [] := by
  induction l with
  | nil =>
    intro acc h
    cases acc with
    | nil => rfl
    | cons a t => exact absurd (h a (List.mem_cons_self a t)) (by simp)
  | cons e t ih =>
    intro acc h
    simp only [List.foldl_cons]
    apply ih
    intro x hx
    have hx2 := List.mem_filter.mp hx
    have hkey : x.1 ∈ (e :: t).map Prod.fst := h x hx2.1
    simp only [List.map_cons, List.mem_cons] at hkey
    rcases hkey with hk | hk
    · exact absurd hk (by simpa using hx2.2)
    · exact hk

/-- The timeout branch clears everything. -/
theorem timeoutClose_nil (st : List (String × Position)) : timeoutClose st = [] :=
  foldl_filter_keys st st (fun x hx => List.mem_map_of_mem Prod.fst hx)

/-- Claim C7: end-of-day reconciliation always ends with an empty local
open-position table, whatever the broker reported during the polling
window; and if some poll within the window reports no nonzero net
position, the local table is cleared at that poll (the function reports
success). -/
theorem c7_reconciliation_clears (polls : List (Option (List (String × ℚ))))
    (st : List (String × Position)) :
    (verifyAndClear polls st).1 = [] ∧
    ((∃ bp, some bp ∈ polls ∧ bp.all (fun x => x.2 = 0) = true) →
      (verifyAndClear polls st).2 = true) := by
  induction polls with
  | nil =>
    refine ⟨?_, ?_⟩
    · by_cases hst : st = []
      · simp [verifyAndClear, hst]
      · simp [verifyAndClear, hst, timeoutClose_nil]
    · rintro ⟨bp, hmem, _⟩
      exact absurd hmem (List.not_mem_nil _)
  | cons p rest ih =>
    cases p with
    | none =>
      refine ⟨ih.1, ?_⟩
      rintro ⟨bp, hmem, hz⟩
      rcases List.mem_cons.mp hmem with hk | hk
      · exact absurd hk (by simp)
      · exact ih.2 ⟨bp, hk, hz⟩
    | some bp0 =>
      by_cases hz0 : bp0.all (fun x => x.2 = 0) = true
      · exact ⟨by simp [verifyAndClear, hz0], fun _ => by simp [verifyAndClear, hz0]⟩
      · refine ⟨by simpa [verifyAndClear, hz0] using ih.1, ?_⟩
        rintro ⟨bp, hmem, hz⟩
        rcases List.mem_cons.mp hmem with hk | hk
        · cases Option.some.inj hk
          exact absurd hz hz0
        · simpa [verifyAndClear, hz0] using ih.2 ⟨bp, hk, hz⟩

/-- Witness for C7 at a concrete input: one unknown poll, then a poll
reporting an empty broker book, over one locally-open position. -/
theorem c7_reconciliation_clears_witness :
    (verifyAndClear [none, some []] [("AAA", ⟨100, 10, "t0", 97⟩)]).1 = [] ∧
    (verifyAndClear [none, some []] [("AAA", ⟨100, 10, "t0", 97⟩)]).2 = true :=
  ⟨(c7_reconciliation_clears [none, some []] [("AAA", ⟨100, 10, "t0", 97⟩)]).1,
   (c7_reconciliation_clears [none, some []] [("AAA", ⟨100, 10, "t0", 97⟩)]).2
     ⟨[], by simp, rfl⟩⟩

/-- Claim C6 (counterexample): the monitoring loop never force-exits on
holding time. This position was opened years in the past — far beyond any
holding duration — and its live price 100 sits strictly between its stop 97
and its target 102, yet the monitor's decision is "no exit"; the claim
requires a forced EXIT_TIME exit (no such reason exists in the code). -/
theorem c6_no_time_exit_counterexample :
    monitorExit defaultConfig ⟨100, 10, "2020-01-01T09:30:00+05:30", 97⟩ 100 = false := by
  simp only [monitorExit, monitorTarget, monitorStop, defaultConfig]
  norm_num

/-- Claim C6 (amended): the exit decision of the monitoring loop depends
only on the live price versus the stop and the percent target — it is
entirely independent of the position's open timestamp, so no elapsed
holding time ever forces an exit. -/
theorem c6_exit_decision_amended (cfg : Config) (e : ℚ) (q : ℤ) (t1 t2 : String) (s ltp : ℚ) :
    monitorExit cfg ⟨e, q, t1, s⟩ ltp = monitorExit cfg ⟨e, q, t2, s⟩ ltp ∧
    (monitorExit cfg ⟨e, q, t1, s⟩ ltp = true ↔
      ltp ≥ e * (1 + cfg.targetPct) ∨ ltp ≤ monitorStop cfg ⟨e, q, t1, s⟩) := by
  refine ⟨rfl, ?_⟩
  simp [monitorExit, monitorTarget]

/-- Claim C2 (counterexample): an unparsable (non-blank) price token does
NOT get dropped individually — it aborts the whole batch. For the alert
`stocks="AAA,BBB"`, `trigger_prices="100,abc"` the handler answers with an
error response and the well-formed entry AAA is never processed, while the
claim requires AAA to still be processed. -/
theorem c2_unparsable_fails_batch :
    (chartinkAlert "AAA,BBB" "100,abc").isFailure = true := by
  have h : priceTokens "100,abc" = [['1', '0', '0'], ['a', 'b', 'c']] := by decide
  simp +decide [chartinkAlert, h, parseAll, parseFloat?, parseUnsigned, natOfDigits,
    AlertResult.isFailure]

/-- Claim C2 (amended): entries whose price token is blank are dropped
individually and never fail the batch; whenever every non-blank price
token parses, the handler answers success (even with zero resulting pairs,
as long as `stocks` is nonempty) — but an unparsable non-blank token fails
the whole batch (see the counterexample). The two concrete conjuncts show
an alert yielding zero pairs and an alert with one blank token where the
remaining well-formed entry is still processed. -/
theorem c2_blank_skip_amended :
    (∀ (stocks tp : String) (ps : List ℚ), stocks ≠ "" →
        parseAll (priceTokens tp) = some ps →
        ∃ sp, chartinkAlert stocks tp = .success sp) ∧
    chartinkAlert "AAA" "" = .success [] ∧
    chartinkAlert "AAA,BBB" "100," = .success [("AAA", 100)] := by
  refine ⟨?_, ?_, ?_⟩
  · intro stocks tp ps h1 h2
    exact ⟨spawnLoop 0 (symbolList stocks) ps, by simp [chartinkAlert, h1, h2]⟩
  · have h : priceTokens "" = [] := by decide
    have h2 : symbolList "AAA" = ["AAA"] := by decide
    simp +decide [chartinkAlert, h, h2, parseAll, spawnLoop]
  · have h : priceTokens "100," = [['1', '0', '0']] := by decide
    have h2 : symbolList "AAA,BBB" = ["AAA", "BBB"] := by decide
    simp +decide [chartinkAlert, h, h2, parseAll, parseFloat?, parseUnsigned, natOfDigits,
      spawnLoop]

/-- Witness for the general part of the amended C2 at a concrete input. -/
theorem c2_blank_skip_amended_witness :
    ∃ sp, chartinkAlert "AAA,BBB" "100," = .success sp :=
  c2_blank_skip_amended.1 "AAA,BBB" "100," [100] (by decide)
    (by
      have h : priceTokens "100," = [['1', '0', '0']] := by decide
      simp +decide [h, parseAll, parseFloat?, parseUnsigned, natOfDigits])

/-- Claim C9: the handler pairs the `i`-th comma-separated symbol with the
`i`-th successfully parsed price after blank tokens are filtered out; a
symbol whose index has no parsed price, or whose paired price is zero, is
silently skipped with no error. The second conjunct characterises the
spawn loop positionally; the last two conjuncts exhibit the pairing shift
caused by a blank middle token (`B` gets `30`, `C` is dropped) and the
silent skip of a zero price. -/
theorem c9_pairing :
    (∀ (stocks tp : String) (ps : List ℚ), stocks ≠ "" →
        parseAll (priceTokens tp) = some ps →
        chartinkAlert stocks tp = .success (spawnLoop 0 (symbolList stocks) ps)) ∧
    (∀ (syms : List String) (ps : List ℚ) (idx : ℕ),
        spawnLoop idx syms ps =
          (List.range syms.length).filterMap (fun i =>
            match syms[i]?, ps[idx + i]? with
            | some s, some p => if p ≠ 0 then some (s, p) else none
            | _, _ => none)) ∧
    chartinkAlert "A,B,C" "10,,30" = .success [("A", 10), ("B", 30)] ∧
    chartinkAlert "A,B" "0,5" = .success [("B", 5)] := by
  refine ⟨?_, ?_, ?_, ?_⟩
  · intro stocks tp ps h1 h2
    simp [chartinkAlert, h1, h2]
  · intro syms
    induction syms with
    | nil => intro ps idx; simp [spawnLoop]
    | cons s rest ih =>
      intro ps idx
      rw [List.length_cons, List.range_succ_eq_map, List.filterMap_cons,
        List.filterMap_map, spawnLoop]
      have hr : (List.filterMap
          ((fun i =>
            match (s :: rest)[i]?, ps[idx + i]? with
            | some s, some p => if p ≠ 0 then some (s, p) else none
            | _, _ => none) ∘ Nat.succ) (List.range rest.length)) =
          spawnLoop (idx + 1) rest ps := by
        rw [ih ps (idx + 1)]
        apply List.filterMap_congr
        intro i _
        simp only [Function.comp_apply, List.getElem?_cons_succ]
        have : idx + (i + 1) = idx + 1 + i := by omega
        rw [this]
      rw [hr]
      cases hp : ps[idx]? with
      | none => simp [List.getElem?_cons_zero, Nat.add_zero, hp]
      | some p =>
        by_cases hz : p ≠ 0
        · simp [List.getElem?_cons_zero, Nat.add_zero, hp, hz]
        · simp [List.getElem?_cons_zero, Nat.add_zero, hp, hz]
  · have h : priceTokens "10,,30" = [['1', '0'], ['3', '0']] := by decide
    have h2 : symbolList "A,B,C" = ["A", "B", "C"] := by decide
    simp +decide [chartinkAlert, h, h2, parseAll, parseFloat?, parseUnsigned, natOfDigits,
      spawnLoop]
  · have h : priceTokens "0,5" = [['0'], ['5']] := by decide
    have h2 : symbolList "A,B" = ["A", "B"] := by decide
    simp +decide [chartinkAlert, h, h2, parseAll, parseFloat?, parseUnsigned, natOfDigits,
      spawnLoop]

/-- Witness for the general parts of C9 at a concrete input. -/
theorem c9_pairing_witness :
    chartinkAlert "A,B,C" "10,,30" =
      .success (spawnLoop 0 (symbolList "A,B,C") [10, 30]) :=
  c9_pairing.1 "A,B,C" "10,,30" [10, 30] (by decide)
    (by
      have h : priceTokens "10,,30" = [['1', '0'], ['3', '0']] := by decide
      simp +decide [h, parseAll, parseFloat?, parseUnsigned, natOfDigits])

/-- Claim C3: among entry candidates that reach the price-sanity check
(symbol resolved, live price present, before the 15:10 cutoff — the checks
run in order, short-circuiting), the outcome reason is
"too_far_above_trigger" exactly when `ltp > trigger * (1 + tolerance)`.
The two concrete conjuncts are the spec's example scenario: AAA (live 101,
trigger 100) passes all checks; BBB (live 60, trigger 50) is rejected with
that reason at the default 2% tolerance. -/
theorem c3_too_far_above_trigger :
    (∀ (cfg : Config) (code : String) (ltp : ℚ) (oc : Option (List Candle)) (trig : ℚ)
        (r : CheckRes),
        shouldEnterTrade cfg (some code) (some ltp) false oc trig = some r →
        (r.reason = "too_far_above_trigger" ↔ ltp > trig * (1 + cfg.entryTolerance))) ∧
    shouldEnterTrade defaultConfig (some "NSE:AAA-EQ") (some 101) false (some calmCandles) 100 =
      some ⟨true, "checks_passed"⟩ ∧
    shouldEnterTrade defaultConfig (some "NSE:BBB-EQ") (some 60) false (some calmCandles) 50 =
      some ⟨false, "too_far_above_trigger"⟩ := by
  refine ⟨?_, ?_, ?_⟩
  · intro cfg code ltp oc trig r h
    by_cases hgt : ltp > trig * (1 + cfg.entryTolerance)
    · simp only [shouldEnterTrade, if_neg (Bool.false_ne_true), if_pos hgt] at h
      cases h
      simpa using hgt
    · simp only [shouldEnterTrade, if_neg (Bool.false_ne_true), if_neg hgt] at h
      constructor
      · intro hreason
        exfalso
        cases oc with
        | none =>
          cases h
          exact absurd hreason (by decide)
        | some cs =>
          have h2 : (match cs[cs.length - (if 2 ≤ cs.length then 2 else 1)]? with
            | none => (none : Option CheckRes)
            | some prevClosed =>
              if ltp > prevClosed.h * (1 + cfg.entryTolerance) then
                some ⟨false, "ltp_above_prev_high_too_much"⟩
              else some ⟨true, "checks_passed"⟩) = some r := h
          cases hg : cs[cs.length - (if 2 ≤ cs.length then 2 else 1)]? with
          | none =>
            rw [hg] at h2
            cases h2
          | some prev =>
            rw [hg] at h2
            have h3 : (if ltp > prev.h * (1 + cfg.entryTolerance) then
                (some ⟨false, "ltp_above_prev_high_too_much"⟩ : Option CheckRes)
              else some ⟨true, "checks_passed"⟩) = some r := h2
            by_cases hh : ltp > prev.h * (1 + cfg.entryTolerance)
            · rw [if_pos hh] at h3
              cases h3
              exact absurd hreason (by decide)
            · rw [if_neg hh] at h3
              cases h3
              exact absurd hreason (by decide)
      · intro hc
        exact absurd hc hgt
  · have hg : calmCandles[calmCandles.length - (if 2 ≤ calmCandles.length then 2 else 1)]? =
        some ⟨0, 100, 100, 99, 100, 1000⟩ := by
      rfl
    simp only [shouldEnterTrade, if_neg (Bool.false_ne_true), hg]
    norm_num [defaultConfig]
  · simp only [shouldEnterTrade, if_neg (Bool.false_ne_true)]
    norm_num [defaultConfig]

/-- Witness for the general part of C3 at a concrete input: live price 60
against trigger 50 is rejected as too far above trigger. -/
theorem c3_too_far_above_trigger_witness :
    (CheckRes.mk false "too_far_above_trigger").reason = "too_far_above_trigger" ↔
      (60 : ℚ) > 50 * (1 + defaultConfig.entryTolerance) :=
  c3_too_far_above_trigger.1 defaultConfig "NSE:BBB-EQ" 60 (some calmCandles) 50
    ⟨false, "too_far_above_trigger"⟩ c3_too_far_above_trigger.2.2

/-- Claim C5 (counterexample): for entry 100 with ATR 2 and multiplier 1.5
the stop is indeed 97.0, but the target is NOT `entry + 2.0 × ATR = 104`:
the exit monitor computes the percent target `entry × (1 + TARGET_PCT)`,
which is 102.0 at the default 2%. -/
theorem c5_target_not_atr_counterexample :
    computeTechnicalStop defaultConfig 100 (some atrCandles) = some 97 ∧
    monitorTarget defaultConfig 100 = 102 ∧ (102 : ℚ) ≠ 104 := by
  refine ⟨?_, by norm_num [monitorTarget, defaultConfig], by norm_num⟩
  have ha : computeAtr atrCandles 14 = some 2 := by
    norm_num [computeAtr, atrCandles, computeTrueRanges, trAux, List.replicate]
    simp
  have hne : atrCandles ≠ [] := by simp [atrCandles]
  simp only [computeTechnicalStop, defaultConfig, ha, if_neg hne]
  norm_num [pyRound2, round_eq]

/-- Claim C5 (amended): under the ATR policy the stop is
`entry − multiplier × ATR`, with the distance floored at 0.2% of entry
(rounded to 2 decimals) — for the example this gives 97.0 — while the
target is the percent target `entry × (1 + targetPct)` (102.0 at the
default 2%), not an ATR multiple. -/
theorem c5_atr_stop_amended :
    (∀ (cfg : Config) (entry : ℚ) (cs : List Candle) (a : ℚ),
        cfg.stopMethod = .atr → cs ≠ [] → computeAtr cs cfg.atrPeriod = some a → a ≠ 0 →
        computeTechnicalStop cfg entry (some cs) =
          some (pyRound2 (entry - max (a * cfg.atrMult) (entry * (2/1000))))) ∧
    (∀ (cfg : Config) (entry : ℚ), monitorTarget cfg entry = entry * (1 + cfg.targetPct)) := by
  constructor
  · intro cfg entry cs a hm hcs ha haz
    simp only [computeTechnicalStop, hm, ha, if_neg (by simpa using hcs), if_pos haz]
    congr 1
    by_cases hlt : entry - (entry - a * cfg.atrMult) < entry * (2/1000)
    · rw [if_pos hlt]
      have : a * cfg.atrMult < entry * (2/1000) := by linarith
      rw [max_eq_right (le_of_lt this)]
    · rw [if_neg hlt]
      have : entry * (2/1000) ≤ a * cfg.atrMult := by linarith
      rw [max_eq_left this]
  · intro cfg entry
    rfl

/-- Witness for the general parts of C5 at the example scenario
(entry 100, ATR 2, multiplier 1.5; percent target at entry 100). -/
theorem c5_atr_stop_amended_witness :
    computeTechnicalStop defaultConfig 100 (some atrCandles) =
      some (pyRound2 (100 - max (2 * defaultConfig.atrMult) (100 * (2/1000)))) ∧
    monitorTarget defaultConfig 100 = 100 * (1 + defaultConfig.targetPct) :=
  ⟨c5_atr_stop_amended.1 defaultConfig 100 atrCandles 2 rfl
      (by simp [atrCandles])
      (by
        norm_num [computeAtr, atrCandles, computeTrueRanges, trAux, List.replicate,
          defaultConfig]
        simp)
      (by norm_num),
   c5_atr_stop_amended.2 defaultConfig 100⟩

/-- Claim C4 (counterexample): with live price 0.20 and a technical stop at
0.25 (`riskPerShare ≤ 0`), the percent fallback stop rounds back up to the
price itself (`round(0.198, 2) = 0.20`), so the risk per share is zero and
the code raises `ValueError` internally, falling back to the fixed
price-bracket rule `get_quantity` (quantity 10 at the defaults) — the
quantity is NOT computed from the percent-of-price stop as the claim
states (no stop is returned by the sizing at all). -/
theorem c4_degenerate_fallback_counterexample :
    sizingBuy defaultConfig (1/5) (some (1/4)) = (getQuantity defaultConfig (1/5), none) ∧
    (sizingBuy defaultConfig (1/5) (some (1/4))).2 ≠
      some (pyRound2 ((1/5) * (1 - defaultConfig.stoplossPct))) ∧
    getQuantity defaultConfig (1/5) = 10 := by
  have hs : sizingBuy defaultConfig (1/5) (some (1/4)) =
      (getQuantity defaultConfig (1/5), none) := by
    simp only [sizingBuy, defaultConfig]
    norm_num [pyRound2, round_eq]
  refine ⟨hs, by rw [hs]; simp, by norm_num [getQuantity, defaultConfig]⟩

/-- Claim C4 (amended): whenever the sizing succeeds with stop `s`
(equivalently, `p − s > 0` after the forced fallback), the quantity is
`max(1, min(floor(riskBudget/(p−s)), floor(maxCapitalPerTrade/p)))` — the
code's `min(max(1,·), max(1,·))` equals the claim's outer flooring by
distributivity; when the incoming stop is at/above the price, sizing falls
back to the rounded percent-of-price stop provided that stop is still
below the price; if rounding lifts the percent stop to/above the price
(possible for small prices, e.g. 0.20 at the 1% default), the quantity
comes from the price-bracket rule instead and no stop is returned. -/
theorem c4_sizing_amended :
    (∀ (cfg : Config) (p : ℚ) (ts0 : Option ℚ) (q : ℤ) (s : ℚ),
        sizingBuy cfg p ts0 = (q, some s) → 0 < p →
        0 ≤ cfg.capitalPerTrade → 0 ≤ cfg.riskPct →
        q = max 1 (min ⌊cfg.capitalPerTrade * cfg.riskPct / (p - s)⌋
              ⌊cfg.capitalPerTrade / p⌋) ∧ 0 < p - s) ∧
    (∀ (cfg : Config) (p s : ℚ), s ≥ p → pyRound2 (p * (1 - cfg.stoplossPct)) < p →
        (sizingBuy cfg p (some s)).2 = some (pyRound2 (p * (1 - cfg.stoplossPct)))) ∧
    (∀ (cfg : Config) (p s : ℚ), s ≥ p → pyRound2 (p * (1 - cfg.stoplossPct)) ≥ p →
        sizingBuy cfg p (some s) = (getQuantity cfg p, none)) := by
  refine ⟨?_, ?_, ?_⟩
  · intro cfg p ts0 q s h hp hcap hrisk
    rw [sizingBuy.eq_def] at h
    set t1 := (match ts0 with
      | none => pyRound2 (p * (1 - cfg.stoplossPct))
      | some s => s) with ht1
    by_cases hr : p - (if t1 ≥ p then pyRound2 (p * (1 - cfg.stoplossPct)) else t1) ≤ 0
    · rw [if_pos hr] at h
      cases h
    · rw [if_neg hr] at h
      cases h
      push_neg at hr
      refine ⟨?_, hr⟩
      have hrisknn : 0 ≤ cfg.capitalPerTrade * cfg.riskPct := mul_nonneg hcap hrisk
      have h1 : pyInt (cfg.capitalPerTrade * cfg.riskPct /
          (p - (if t1 ≥ p then pyRound2 (p * (1 - cfg.stoplossPct)) else t1))) =
          ⌊cfg.capitalPerTrade * cfg.riskPct /
            (p - (if t1 ≥ p then pyRound2 (p * (1 - cfg.stoplossPct)) else t1))⌋ := by
        rw [pyInt, if_pos (div_nonneg hrisknn (le_of_lt hr))]
      have h2 : pyInt (cfg.capitalPerTrade / p) = ⌊cfg.capitalPerTrade / p⌋ := by
        rw [pyInt, if_pos (div_nonneg hcap (le_of_lt hp))]
      rw [h1, h2, ← max_min_distrib_left]
  · intro cfg p s hsp hround
    simp only [sizingBuy, if_pos hsp]
    rw [if_neg (by linarith)]
  · intro cfg p s hsp hround
    simp only [sizingBuy, if_pos hsp]
    rw [if_pos (by linarith)]

/-- Witness for C4 (amended) at concrete inputs: price 100 with stop 98
sizes to `min(floor(200/2), floor(20000/100)) = 100`; price 100 with an
inverted stop 105 falls back to the percent stop 99.0; price 0.20 with
stop 0.25 degenerates to the bracket rule. -/
theorem c4_sizing_amended_witness :
    ((100 : ℤ) = max 1 (min ⌊defaultConfig.capitalPerTrade * defaultConfig.riskPct /
        ((100 : ℚ) - 98)⌋ ⌊defaultConfig.capitalPerTrade / (100 : ℚ)⌋) ∧
      (0 : ℚ) < 100 - 98) ∧
    (sizingBuy defaultConfig 100 (some 105)).2 =
      some (pyRound2 ((100 : ℚ) * (1 - defaultConfig.stoplossPct))) ∧
    sizingBuy defaultConfig (1/5) (some (1/4)) = (getQuantity defaultConfig (1/5), none) :=
  ⟨c4_sizing_amended.1 defaultConfig 100 (some 98) 100 98
      (by
        simp only [sizingBuy, defaultConfig]
        norm_num [pyInt])
      (by norm_num) (by norm_num [defaultConfig]) (by norm_num [defaultConfig]),
   c4_sizing_amended.2.1 defaultConfig 100 105 (by norm_num)
      (by norm_num [pyRound2, round_eq, defaultConfig]),
   c4_sizing_amended.2.2 defaultConfig (1/5) (1/4) (by norm_num)
      (by norm_num [pyRound2, round_eq, defaultConfig])⟩

/-- Two-decimal rounding is monotone. -/
theorem pyRound2_mono {a b : ℚ} (h : a ≤ b) : pyRound2 a ≤ pyRound2 b := by
  unfold pyRound2
  have hr : round (a * 100) ≤ round (b * 100) := by
    rw [round_eq, round_eq]
    exact Int.floor_le_floor (by linarith)
  have h2 : ((round (a * 100) : ℤ) : ℚ) ≤ ((round (b * 100) : ℤ) : ℚ) := by
    exact_mod_cast hr
  exact (div_le_div_iff_of_pos_right (by norm_num)).mpr h2

/-- The percent stop is strictly below the price. -/
theorem percent_stop_lt {entry sl : ℚ} (hsl : 0 < sl) (he : 0 < entry) :
    entry * (1 - sl) < entry := by nlinarith

/-- `compute_technical_stop` never exceeds the entry price, for a positive
entry that is itself a two-decimal value (each branch rounds a value
strictly below entry, and rounding is monotone). -/
theorem computeTechnicalStop_le (cfg : Config) (entry : ℚ) (oc : Option (List Candle))
    (s : ℚ) (hSL : 0 < cfg.stoplossPct) (he : 0 < entry)
    (hfix : pyRound2 entry = entry) (h : computeTechnicalStop cfg entry oc = some s) :
    s ≤ entry := by
  have bound : ∀ raw : ℚ, raw < entry → pyRound2 raw ≤ entry := fun raw hraw =>
    hfix ▸ pyRound2_mono (le_of_lt hraw)
  have hperc : pyRound2 (entry * (1 - cfg.stoplossPct)) ≤ entry :=
    bound _ (percent_stop_lt hSL he)
  cases oc with
  | none => exact Option.noConfusion h
  | some cs =>
    have h1 : (if cs = [] then none
        else
          let percent := some (pyRound2 (entry * (1 - cfg.stoplossPct)))
          match cfg.stopMethod with
          | .atr =>
            match computeAtr cs cfg.atrPeriod with
            | some atr =>
              if atr ≠ 0 then
                let stop := entry - atr * cfg.atrMult
                let minDist := entry * (2/1000)
                let stop := if entry - stop < minDist then entry - minDist else stop
                some (pyRound2 stop)
              else percent
            | none => percent
          | .swingLow =>
            match computeSwingLow cs cfg.swingLookback with
            | some swing =>
              if swing ≠ 0 then
                let buffer := entry * (2/1000)
                let stop := swing - buffer
                let stop := if stop ≥ entry then entry * (1 - cfg.stoplossPct) else stop
                some (pyRound2 stop)
              else percent
            | none => percent
          | .vwma =>
            let vw :=
              if cfg.vwmaLookback = 0 then computeVwma cs
              else if cs.length ≥ cfg.vwmaLookback then
                computeVwma (cs.drop (cs.length - cfg.vwmaLookback))
              else computeVwma cs
            match vw with
            | some v =>
              if v ≠ 0 then
                some (pyRound2 (min (entry * (1 - cfg.stoplossPct)) (v * (995/1000))))
              else percent
            | none => percent
          | .percent => percent) = some s := h
    by_cases hcs : cs = []
    · rw [if_pos hcs] at h1
      exact Option.noConfusion h1
    · rw [if_neg hcs] at h1
      simp only at h1
      cases hm : cfg.stopMethod with
      | atr =>
        rw [hm] at h1
        cases hatr : computeAtr cs cfg.atrPeriod with
        | none =>
          rw [hatr] at h1
          have h2 : some (pyRound2 (entry * (1 - cfg.stoplossPct))) = some s := h1
          cases h2
          exact hperc
        | some atr =>
          rw [hatr] at h1
          have h2 : (if atr ≠ 0 then
              some (pyRound2 (if entry - (entry - atr * cfg.atrMult) < entry * (2/1000)
                then entry - entry * (2/1000) else entry - atr * cfg.atrMult))
            else some (pyRound2 (entry * (1 - cfg.stoplossPct)))) = some s := h1
          by_cases haz : atr ≠ 0
          · rw [if_pos haz] at h2
            cases h2
            by_cases hlt : entry - (entry - atr * cfg.atrMult) < entry * (2/1000)
            · rw [if_pos hlt]
              exact bound _ (by nlinarith)
            · rw [if_neg hlt]
              push_neg at hlt
              exact bound _ (by nlinarith)
          · rw [if_neg haz] at h2
            cases h2
            exact hperc
      | swingLow =>
        rw [hm] at h1
        cases hsw : computeSwingLow cs cfg.swingLookback with
        | none =>
          rw [hsw] at h1
          have h2 : some (pyRound2 (entry * (1 - cfg.stoplossPct))) = some s := h1
          cases h2
          exact hperc
        | some swing =>
          rw [hsw] at h1
          have h2 : (if swing ≠ 0 then
              some (pyRound2 (if swing - entry * (2/1000) ≥ entry
                then entry * (1 - cfg.stoplossPct) else swing - entry * (2/1000)))
            else some (pyRound2 (entry * (1 - cfg.stoplossPct)))) = some s := h1
          by_cases hswz : swing ≠ 0
          · rw [if_pos hswz] at h2
            cases h2
            by_cases hge : swing - entry * (2/1000) ≥ entry
            · rw [if_pos hge]
              exact bound _ (percent_stop_lt hSL he)
            · rw [if_neg hge]
              push_neg at hge
              exact bound _ hge
          · rw [if_neg hswz] at h2
            cases h2
            exact hperc
      | vwma =>
        rw [hm] at h1
        cases hvw : (if cfg.vwmaLookback = 0 then computeVwma cs
            else if cs.length ≥ cfg.vwmaLookback then
              computeVwma (cs.drop (cs.length - cfg.vwmaLookback))
            else computeVwma cs) with
        | none =>
          rw [hvw] at h1
          have h2 : some (pyRound2 (entry * (1 - cfg.stoplossPct))) = some s := h1
          cases h2
          exact hperc
        | some v =>
          rw [hvw] at h1
          have h2 : (if v ≠ 0 then
              some (pyRound2 (min (entry * (1 - cfg.stoplossPct)) (v * (995/1000))))
            else some (pyRound2 (entry * (1 - cfg.stoplossPct)))) = some s := h1
          by_cases hvz : v ≠ 0
          · rw [if_pos hvz] at h2
            cases h2
            exact bound _ (lt_of_le_of_lt (min_le_left _ _) (percent_stop_lt hSL he))
          · rw [if_neg hvz] at h2
            cases h2
            exact hperc
      | percent =>
        rw [hm] at h1
        have h2 : some (pyRound2 (entry * (1 - cfg.stoplossPct))) = some s := h1
        cases h2
        exact hperc

/-- When the sizing block returns a stop, that stop is strictly below the
live price (the code checked `risk_per_share > 0`). -/
theorem sizingBuy_stop_lt (cfg : Config) (p : ℚ) (ts0 : Option ℚ) (q : ℤ) (s : ℚ)
    (h : sizingBuy cfg p ts0 = (q, some s)) : s < p := by
  rw [sizingBuy.eq_def] at h
  set t1 := (match ts0 with
    | none => pyRound2 (p * (1 - cfg.stoplossPct))
    | some s => s) with ht1
  by_cases hr : p - (if t1 ≥ p then pyRound2 (p * (1 - cfg.stoplossPct)) else t1) ≤ 0
  · rw [if_pos hr] at h
    cases h
  · rw [if_neg hr] at h
    cases h
    push_neg at hr
    linarith

/-- The stop recorded into `open_positions` never exceeds the recorded
entry price, for a positive two-decimal entry. -/
theorem recordedStop_le (cfg : Config) (env : OrderEnv) (price : ℚ)
    (hSL : 0 < cfg.stoplossPct) (he : 0 < entryOf env price)
    (hfix : pyRound2 (entryOf env price) = entryOf env price) :
    recordedStop cfg env price ≤ entryOf env price := by
  have hfresh : (match computeTechnicalStop cfg (entryOf env price) env.candles with
      | none => pyRound2 (entryOf env price * (1 - cfg.stoplossPct))
      | some s2 => s2) ≤ entryOf env price := by
    cases hc : computeTechnicalStop cfg (entryOf env price) env.candles with
    | none =>
      exact le_trans (pyRound2_mono (le_of_lt (percent_stop_lt hSL he))) (le_of_eq hfix)
    | some s2 =>
      exact computeTechnicalStop_le cfg _ env.candles s2 hSL he hfix hc
  unfold recordedStop
  cases hsz : (sizedOf cfg env price).2 with
  | none =>
    show (match computeTechnicalStop cfg (entryOf env price) env.candles with
      | none => pyRound2 (entryOf env price * (1 - cfg.stoplossPct))
      | some s2 => s2) ≤ entryOf env price
    exact hfresh
  | some s =>
    show (if s ≠ 0 then s
      else (match computeTechnicalStop cfg (entryOf env price) env.candles with
        | none => pyRound2 (entryOf env price * (1 - cfg.stoplossPct))
        | some s2 => s2)) ≤ entryOf env price
    by_cases hz : s ≠ 0
    · rw [if_pos hz]
      unfold sizedOf at hsz
      cases hlt : env.sizeLtp with
      | none =>
        rw [hlt] at hsz
        have hsz2 : (none : Option ℚ) = some s := hsz
        exact Option.noConfusion hsz2
      | some v =>
        rw [hlt] at hsz
        have hsz2 : (if v ≠ 0 then sizingBuy cfg v (computeTechnicalStop cfg v env.candles)
            else (getQuantity cfg price, none)).2 = some s := hsz
        by_cases hv : v ≠ 0
        · rw [if_pos hv] at hsz2
          have hvp : entryOf env price = v := by
            unfold entryOf
            rw [hlt]
            show (if v ≠ 0 then v else price) = v
            rw [if_pos hv]
          rw [hvp]
          exact le_of_lt (sizingBuy_stop_lt cfg v _ _ s (Prod.ext rfl hsz2))
        · rw [if_neg hv] at hsz2
          have hsz3 : (none : Option ℚ) = some s := hsz2
          exact Option.noConfusion hsz3
    · rw [if_neg hz]
      exact hfresh

/-- What a successful BUY records: the entry is `entryOf`, the stop is
`recordedStop`. -/
theorem placeOrderBuy_recorded (cfg : Config) (env : OrderEnv) (symbol : String)
    (price : ℚ) (sym : String) (pos : Position)
    (h : (placeOrderBuy cfg env symbol price).recorded = some (sym, pos)) :
    pos.entry_price = entryOf env price ∧ pos.stop_price = recordedStop cfg env price := by
  unfold placeOrderBuy at h
  split at h
  · exact Option.noConfusion h
  · split at h
    · exact Option.noConfusion h
    · split at h
      · exact Option.noConfusion h
      · split at h
        · exact Option.noConfusion h
        · split at h
          · have h2 : some (symbol,
                ({ entry_price := entryOf env price, qty := max 1 (sizedOf cfg env price).1,
                   timestamp := env.nowIso,
                   stop_price := recordedStop cfg env price } : Position)) =
                some (sym, pos) := h
            injection h2 with h3
            have h5 := (Prod.mk.injEq _ _ _ _).mp h3
            rw [← h5.2]
            exact ⟨rfl, rfl⟩
          · exact Option.noConfusion h

/-- Claim C10: every position a successful BUY records has its stored stop
strictly below its entry price, assuming the configured fallback stop
percent lies strictly in (0, 1) and two-decimal rounding does not collapse
the stop onto the entry (formalised as: the entry is itself a two-decimal
price and the recorded stop differs from it — rounding can close the gap
only up to equality, never invert it). -/
theorem c10_stop_below_entry (cfg : Config) (env : OrderEnv) (symbol : String)
    (price : ℚ) (sym : String) (pos : Position)
    (hrec : (placeOrderBuy cfg env symbol price).recorded = some (sym, pos))
    (hSL0 : 0 < cfg.stoplossPct) (hSL1 : cfg.stoplossPct < 1)
    (hpos : 0 < pos.entry_price) (hfix : pyRound2 pos.entry_price = pos.entry_price)
    (hne : pos.stop_price ≠ pos.entry_price) :
    pos.stop_price < pos.entry_price := by
  obtain ⟨he, hs⟩ := placeOrderBuy_recorded cfg env symbol price sym pos hrec
  rw [he] at hpos hfix
  rw [he, hs] at hne ⊢
  exact lt_of_le_of_ne (recordedStop_le cfg env price hSL0 hpos hfix) hne

/-- Witness for C10 at a concrete input: the benign environment records
position (entry 101, qty 133, stop 99.5), and the theorem yields
99.5 < 101. -/
theorem c10_stop_below_entry_witness :
    (placeOrderBuy defaultConfig benignEnv "AAA" 100).recorded =
      some ("AAA", ⟨101, 133, "t0", 199/2⟩) ∧ (199/2 : ℚ) < 101 := by
  have hcts : computeTechnicalStop defaultConfig 101 (some calmCandles) = some (199/2) := by
    have ha : computeAtr calmCandles 14 = some 1 := by
      norm_num [computeAtr, calmCandles, computeTrueRanges, trAux, List.replicate]
      simp
    have hne : calmCandles ≠ [] := by simp [calmCandles]
    simp only [computeTechnicalStop, defaultConfig, ha, if_neg hne]
    norm_num [pyRound2, round_eq]
  have hsz : sizingBuy defaultConfig 101 (some (199/2)) = (133, some (199/2)) := by
    simp only [sizingBuy, defaultConfig]
    norm_num [pyInt]
  have hg : calmCandles[calmCandles.length - (if 2 ≤ calmCandles.length then 2 else 1)]? =
      some ⟨0, 100, 100, 99, 100, 1000⟩ := by
    rfl
  have hchk : shouldEnterTrade defaultConfig (some "NSE:AAA-EQ") (some 101) false
      (some calmCandles) 100 = some ⟨true, "checks_passed"⟩ := by
    simp only [shouldEnterTrade, if_neg (Bool.false_ne_true), hg]
    norm_num [defaultConfig]
  have hrec : (placeOrderBuy defaultConfig benignEnv "AAA" 100).recorded =
      some ("AAA", ⟨101, 133, "t0", 199/2⟩) := by
    simp [placeOrderBuy, benignEnv, hchk, sizedOf, entryOf, recordedStop, hcts, hsz]
  refine ⟨hrec, ?_⟩
  exact c10_stop_below_entry defaultConfig benignEnv "AAA" 100 "AAA" ⟨101, 133, "t0", 199/2⟩
    hrec (by norm_num [defaultConfig]) (by norm_num [defaultConfig]) (by norm_num)
    (by norm_num [pyRound2, round_eq]) (by norm_num)

end ChartinkWebhook
